import Mathlib

/-!
Shallow embedding of the ExZodOs runtime validation pipeline:
the server-side router facade (`ExZodOsRouter.new` in src/unnamed/part_002)
and the client-side request builder (`ExZodOsClient` in src/client/index.ts).

JavaScript values are modelled by `JVal`; a zod schema is modelled as its
black-box `parse` capability `JVal → Option JVal`, where `none` stands for
"parse raised a validation error" (the spec treats the schema library as an
external collaborator exposing exactly this interface).
-/

namespace ExZodOs

/-- A JavaScript value, as far as the pipeline observes it: `null` and
`undefined` are distinguished because the source uses optional chaining and
nullish coalescing (`?.`, `??`), which treat exactly these two as nullish. -/
inductive JVal where
  | vnull
  | vundef
  | vbool (b : Bool)
  | vnum (n : Int)
  | vstr (s : String)
  | vobj (fields : List (String × JVal))
  | varr (elems : List JVal)

/-- `true` exactly on the two JS nullish values, mirroring `??`. -/
def isNullish : JVal → Bool
  | JVal.vnull => true
  | JVal.vundef => true
  | _ => false

/-- A schema capability: `parse(raw) -> parsed | raises ValidationError`,
with `none` standing for the raised error. -/
def Schema : Type := JVal → Option JVal

/-- Key of the response-schema map of a RouteDescription: either a numeric
status code or the distinguished `"default"` entry (src/core/index.ts,
`response: Record<number | "default", z.ZodType | undefined>`). -/
inductive RespKey where
  | code (n : Nat)
  | dflt
deriving DecidableEq, BEq

/-- One entry of the Route Table (src/core/index.ts `RouteDescription`):
optional schemas for header, cookie, path, query and body of the request,
and a response-schema map keyed by status code or `"default"`. -/
structure RouteDescription where
  reqHeader : Option Schema
  reqCookie : Option Schema
  reqPath : Option Schema
  reqQuery : Option Schema
  reqBody : Option Schema
  response : List (RespKey × Schema)

/-- The supported HTTP methods (src/core/index.ts `METHODS`). -/
inductive Method where
  | get
  | post
  | put
  | delete
  | patch
deriving DecidableEq

/-- The `METHODS` constant of src/core/index.ts. -/
def METHODS : List Method := [Method.get, Method.post, Method.put, Method.delete, Method.patch]

/-- The Api definition: a map from path to a per-method optional
RouteDescription (src/core/index.ts `Api`). -/
def Api : Type := List (String × (Method → Option RouteDescription))

/-- `apiDef[path]?.[method] ?? undefined` (src/unnamed/part_002 line 43). -/
def apiLookup (api : Api) (path : String) (method : Method) : Option RouteDescription :=
  match api.find? (fun e => decide (e.1 = path)) with
  | none => none
  | some e => e.2 method

/-- The router configuration (src/unnamed/part_002 lines 18-33); the
`errorHandler` field is an external callback and is modelled by recording
its invocations in a call trace (`Call`). -/
structure RouterConfig where
  attachResponseValidator : Bool
  skipRequestBodyValidation : Bool

/-- The mutable request context, as far as the request validator can touch
it: the path-parameter bag (`req.params`), query bag (`req.query`), body
(`req.body`), plus the parts the validator must leave alone. -/
structure ReqCtx where
  params : JVal
  query : JVal
  body : JVal
  headers : JVal
  cookies : JVal

/-- The response context: current status code and the body emitted through
`res.json`, when one has been emitted. -/
structure ResCtx where
  statusCode : Nat
  sentBody : Option JVal

/-- External calls a middleware can make: hand control to the next stage, or
invoke the user-supplied `errorHandler`. -/
inductive Call where
  | next
  | errorHandler
deriving DecidableEq

/-- Modelled from the spec: the schema library (zod) is an external
collaborator, not part of src/; `z.object({}).parse` on the request side is
specified as "parse the raw bag through an empty-object schema — i.e.,
require the bag to carry no keys — and replace it with that empty result"
(spec §4.2 step 1). -/
def emptyObjSchema : Schema := fun v =>
  match v with
  | JVal.vobj [] => some (JVal.vobj [])
  | _ => none

/-- Modelled from the spec: `z.object({}).optional().parse` for the
undeclared-body branch, which "accepts either an empty object or an absent
value" (spec §4.2 step 3). -/
def emptyObjOptionalSchema : Schema := fun v =>
  match v with
  | JVal.vobj [] => some (JVal.vobj [])
  | JVal.vundef => some JVal.vundef
  | _ => none

/-- The request validation middleware (src/unnamed/part_002 lines 52-86):
validate params, then query, then (unless skipped) body, each through the
declared schema or the empty-object assertion; on the first failure the
`catch` invokes `errorHandler` with the request as mutated so far, and the
next stage is not called. The response context is returned as the
middleware leaves it (it never writes to it). -/
def requestValidator (rd : RouteDescription) (cfg : RouterConfig) (req : ReqCtx) (res : ResCtx) :
    ReqCtx × ResCtx × List Call :=
  match (match rd.reqPath with
         | some s => s req.params
         | none => emptyObjSchema req.params) with
  | none => (req, res, [Call.errorHandler])
  | some p =>
    let req1 : ReqCtx := { req with params := p }
    match (match rd.reqQuery with
           | some s => s req1.query
           | none => emptyObjSchema req1.query) with
    | none => (req1, res, [Call.errorHandler])
    | some q =>
      let req2 : ReqCtx := { req1 with query := q }
      if cfg.skipRequestBodyValidation then
        (req2, res, [Call.next])
      else
        match (match rd.reqBody with
               | some s => s req2.body
               | none => emptyObjOptionalSchema req2.body) with
        | none => (req2, res, [Call.errorHandler])
        | some b => ({ req2 with body := b }, res, [Call.next])

/-- Whether all the validation steps of `requestValidator` succeed on the
given request (the query step reads the query bag, which the params step
does not touch, and likewise for the body). -/
def reqValidationOk (rd : RouteDescription) (cfg : RouterConfig) (req : ReqCtx) : Bool :=
  (match rd.reqPath with
   | some s => s req.params
   | none => emptyObjSchema req.params).isSome
  && (match rd.reqQuery with
      | some s => s req.query
      | none => emptyObjSchema req.query).isSome
  && (cfg.skipRequestBodyValidation
      || (match rd.reqBody with
          | some s => s req.body
          | none => emptyObjOptionalSchema req.body).isSome)

/-- `routeDescription.response[res.statusCode]`: numeric-key lookup in the
response map; `res.statusCode` is a number, so the `"default"` key can never
be hit. -/
def respLookup (m : List (RespKey × Schema)) (statusCode : Nat) : Option Schema :=
  (m.find? (fun e => decide (e.1 = RespKey.code statusCode))).map (fun e => e.2)

/-- The fixed error body emitted on a response-schema violation
(src/unnamed/part_002 lines 101-104). -/
def fixedErrorBody : JVal :=
  JVal.vobj [("status", JVal.vstr "Internal server error"),
             ("message", JVal.vstr "Server generated response is out of API spec")]

/-- The overridden `res.json` installed by the response validation
middleware (src/unnamed/part_002 lines 95-106):
`parsedBody = routeDescription.response[res.statusCode]?.parse(body) ?? body`
inside a try; on a parse error the catch sets status 500 and emits the fixed
error body. The call trace records any `errorHandler` invocation (there is
none in this function). -/
def resJsonOverride (rd : RouteDescription) (res : ResCtx) (body : JVal) : ResCtx × List Call :=
  match respLookup rd.response res.statusCode with
  | none =>
      ({ res with sentBody := some body }, [])
  | some s =>
      match s body with
      | none =>
          ({ statusCode := 500, sentBody := some fixedErrorBody }, [])
      | some parsed =>
          ({ res with sentBody := some (if isNullish parsed then body else parsed) }, [])

/-- A middleware in the chain an intercepted verb registration hands to the
underlying express registrar: an injected validator, or a user handler
(opaque, of type `H`). -/
inductive Mw (H : Type) where
  | user (h : H)
  | requestValidatorMw (rd : RouteDescription) (cfg : RouterConfig)
  | responseValidatorMw (rd : RouteDescription)

/-- One variadic argument of the underlying registrar call: the source
passes the injected validators singly and the user handler array as one
array argument (`originalHandlerRegistrar(path, handlers)`,
`originalHandlerRegistrar(path, requestValidator, responseValidator, handlers)`). -/
inductive RegArg (H : Type) where
  | one (mw : Mw H)
  | many (hs : List H)

/-- The argument list the overridden verb method passes to the saved
original registrar (src/unnamed/part_002 lines 42-49 and 111-117). -/
def registrarArgs {H : Type} (api : Api) (cfg : RouterConfig) (method : Method)
    (path : String) (handlers : List H) : List (RegArg H) :=
  match apiLookup api path method with
  | none => [RegArg.many handlers]
  | some rd =>
      if cfg.attachResponseValidator then
        [RegArg.one (Mw.requestValidatorMw rd cfg),
         RegArg.one (Mw.responseValidatorMw rd),
         RegArg.many handlers]
      else
        [RegArg.one (Mw.requestValidatorMw rd cfg),
         RegArg.many handlers]

/-- Express flattens nested handler arrays, so the effective middleware
chain is the flattening of the registrar arguments, user handlers wrapped
as `Mw.user`. -/
def flattenArgs {H : Type} : List (RegArg H) → List (Mw H)
  | [] => []
  | RegArg.one mw :: rest => mw :: flattenArgs rest
  | RegArg.many hs :: rest => hs.map Mw.user ++ flattenArgs rest

/-- The effective middleware chain registered for a route by the
intercepted verb method. -/
def registeredChain {H : Type} (api : Api) (cfg : RouterConfig) (method : Method)
    (path : String) (handlers : List H) : List (Mw H) :=
  flattenArgs (registrarArgs api cfg method path handlers)

/-- Whether a chain element ever invokes a schema parse when a request runs
through it: user handlers are opaque pass-through code, the two injected
validators are the only middleware that call `parse`. -/
def mwInvokesParse {H : Type} : Mw H → Bool
  | Mw.user _ => false
  | Mw.requestValidatorMw _ _ => true
  | Mw.responseValidatorMw _ => true

/-- A path-substitution value: `Record<string, string | number>` in
`replacePathParams` (src/client/index.ts line 70). -/
inductive PathVal where
  | str (s : String)
  | num (n : Int)

/-- JS `.toString()` on a path-substitution value. -/
def pvToString : PathVal → String
  | PathVal.str s => s
  | PathVal.num n => toString n

/-- Boolean test that `pat` is a prefix of the second list. -/
def startsWithL : List Char → List Char → Bool
  | [], _ => true
  | _ :: _, [] => false
  | p :: ps, c :: cs => decide (p = c) && startsWithL ps cs

/-- Boolean test that `pat` occurs as a contiguous substring. -/
def occursIn (pat : List Char) : List Char → Bool
  | [] => startsWithL pat []
  | c :: rest => startsWithL pat (c :: rest) || occursIn pat rest

/-- JS `String.prototype.replace` with a string pattern: replace the first
occurrence only; a string with no occurrence is returned unchanged. -/
def replaceFirstList (pat repl : List Char) : List Char → List Char
  | [] => if startsWithL pat [] then repl else []
  | c :: rest =>
      if startsWithL pat (c :: rest) then repl ++ (c :: rest).drop pat.length
      else c :: replaceFirstList pat repl rest

/-- JS `s.replace(pat, repl)` for string patterns, on `String`. -/
def jsReplaceFirst (s pat repl : String) : String :=
  String.mk (replaceFirstList pat.data repl.data s.data)

/-- `ExZodOsClient.replacePathParams` (src/client/index.ts lines 70-76):
for each key of the map in order, `modifiedUrl = modifiedUrl.replace(
":" + key, path[key].toString())`. -/
def replacePathParams (url : String) (path : List (String × PathVal)) : String :=
  path.foldl (fun modifiedUrl kv => jsReplaceFirst modifiedUrl (":" ++ kv.1) (pvToString kv.2)) url

/-- Fuel-bounded left-to-right replace-all used only to state what the spec
sentence "replace every occurrence" asks for. -/
def replaceAllAux (pat repl : List Char) : Nat → List Char → List Char
  | _, [] => []
  | 0, s => s
  | fuel + 1, c :: rest =>
      if startsWithL pat (c :: rest) && !pat.isEmpty then
        repl ++ replaceAllAux pat repl fuel ((c :: rest).drop pat.length)
      else
        c :: replaceAllAux pat repl fuel rest

/-- Replace every occurrence of `pat`, scanning left to right. -/
def replaceAllL (pat repl s : List Char) : List Char :=
  replaceAllAux pat repl s.length s

/-- Modelled from the spec: path substitution as the spec words it — "for
every key in the `path` map, replace every occurrence of a `:key`
placeholder token in the path template with the stringified value"
(spec §4.4). Stated only to compare against `replacePathParams`. -/
def replaceAllPathParams (url : String) (path : List (String × PathVal)) : String :=
  path.foldl
    (fun modifiedUrl kv =>
      String.mk (replaceAllL (":" ++ kv.1).data (pvToString kv.2).data modifiedUrl.data))
    url

/-- The subset of a `...rest` axios config that could override the fields
the builder itself sets (merged last, documented last-wins). -/
structure RestConfig where
  method : Option Method := none
  url : Option String := none

/-- The typed client config accepted by the builder (src/client/index.ts
lines 78-83): optional header, path-substitution map, query, body, and the
pass-through rest options. -/
structure ClientConfig where
  header : Option JVal := none
  path : Option (List (String × PathVal)) := none
  query : Option JVal := none
  body : Option JVal := none
  rest : RestConfig := {}

/-- The transport request descriptor the builder produces; absent JS object
keys are `none`, and `hasParamsSerializer` records whether the bracketed
query serializer was installed. -/
structure AxiosRequestConfig where
  method : Method
  url : String
  headers : Option JVal
  params : Option JVal
  hasParamsSerializer : Bool
  data : Option JVal

/-- `ExZodOsClient.buildAxiosConfig` (src/client/index.ts lines 78-105):
without a config, return `{method, url: path}` unmodified; with one, split
it, substitute path params when a `path` map is present, and merge the rest
options last. -/
def buildAxiosConfig (method : Method) (path : String) (config : Option ClientConfig) :
    AxiosRequestConfig :=
  match config with
  | none =>
      { method := method, url := path, headers := none, params := none,
        hasParamsSerializer := false, data := none }
  | some cfg =>
      let url0 : String :=
        match cfg.path with
        | some p => replacePathParams path p
        | none => path
      { method := (cfg.rest.method).getD method,
        url := (cfg.rest.url).getD url0,
        headers := cfg.header,
        params := cfg.query,
        hasParamsSerializer := true,
        data := cfg.body }

/-- Fixture: a route declaring no request schemas and no response schemas. -/
def rdBare : RouteDescription := ⟨none, none, none, none, none, []⟩

/-- Fixture: a schema that fails on every input. -/
def sFail : Schema := fun _ => none

/-- Fixture: a schema that parses every input to `null`. -/
def sNull : Schema := fun _ => some JVal.vnull

/-- Fixture: a route whose 200 response schema always fails. -/
def rdFail200 : RouteDescription := ⟨none, none, none, none, none, [(RespKey.code 200, sFail)]⟩

/-- Fixture: a route whose 200 response schema parses to `null`. -/
def rdNull200 : RouteDescription := ⟨none, none, none, none, none, [(RespKey.code 200, sNull)]⟩

/-- Fixture: a one-route Api. -/
def apiOne : Api := [("/u", fun _ => some rdBare)]

/-- Fixture: a request whose path-parameter bag carries one key. -/
def reqOneParam : ReqCtx :=
  ⟨JVal.vobj [("a", JVal.vnull)], JVal.vobj [], JVal.vobj [], JVal.vnull, JVal.vnull⟩

theorem requestValidator_res_and_trace (rd : RouteDescription) (cfg : RouterConfig)
    (req : ReqCtx) (res : ResCtx) :
    (requestValidator rd cfg req res).2.1 = res ∧
    (requestValidator rd cfg req res).2.2
      = (if reqValidationOk rd cfg req then [Call.next] else [Call.errorHandler]) := by
  obtain ⟨pv, qv, bv, hv, cv⟩ := req
  unfold requestValidator reqValidationOk
  dsimp only
  split <;> split <;> simp_all
  split <;> simp_all
  split <;> simp_all

theorem find?_code_filter (m : List (RespKey × Schema)) (n : Nat) :
    m.find? (fun e => decide (e.1 = RespKey.code n))
      = (m.filter (fun e => decide (e.1 ≠ RespKey.dflt))).find?
          (fun e => decide (e.1 = RespKey.code n)) := by
  induction m with
  | nil => rfl
  | cons e rest ih =>
      obtain ⟨k, s⟩ := e
      cases k with
      | code c =>
          rcases eq_or_ne c n with h | h
          · subst h
            simp [List.find?_cons, List.filter_cons]
          · simp [List.find?_cons, List.filter_cons, h, ih]
      | dflt =>
          simp [List.find?_cons, List.filter_cons, ih]

theorem startsWithL_self_append (pat t : List Char) : startsWithL pat (pat ++ t) = true := by
  induction pat with
  | nil => rfl
  | cons p ps ih => simp [startsWithL, ih]

theorem replaceFirstList_at_head (pat repl t : List Char) :
    replaceFirstList pat repl (pat ++ t) = repl ++ t := by
  cases pat with
  | nil =>
      cases t with
      | nil => simp [replaceFirstList, startsWithL]
      | cons c rest => simp [replaceFirstList, startsWithL]
  | cons p ps =>
      show replaceFirstList (p :: ps) repl (p :: (ps ++ t)) = repl ++ t
      rw [replaceFirstList]
      have : startsWithL (p :: ps) (p :: (ps ++ t)) = true := startsWithL_self_append (p :: ps) t
      rw [this]
      simp [List.drop_left]

theorem replaceFirstList_no_occ (pat repl : List Char) :
    ∀ s : List Char, occursIn pat s = false → replaceFirstList pat repl s = s := by
  intro s
  induction s with
  | nil =>
      intro h
      rw [occursIn] at h
      simp [replaceFirstList, h]
  | cons c rest ih =>
      intro h
      rw [occursIn, Bool.or_eq_false_iff] at h
      simp [replaceFirstList, h.1, ih h.2]

theorem replaceFirstList_first_occ (pat repl b : List Char) :
    ∀ a : List Char,
      (∀ i, i < a.length → startsWithL pat ((a ++ pat ++ b).drop i) = false) →
      replaceFirstList pat repl (a ++ pat ++ b) = a ++ repl ++ b := by
  intro a
  induction a with
  | nil =>
      intro _
      simpa using replaceFirstList_at_head pat repl b
  | cons c a' ih =>
      intro h
      have h0 : startsWithL pat (c :: (a' ++ pat ++ b)) = false := by
        have := h 0 (by simp)
        simpa using this
      have h' : ∀ i, i < a'.length → startsWithL pat ((a' ++ pat ++ b).drop i) = false := by
        intro i hi
        have := h (i + 1) (by simpa using Nat.succ_lt_succ hi)
        simpa using this
      show replaceFirstList pat repl (c :: (a' ++ pat ++ b)) = c :: (a' ++ repl ++ b)
      rw [replaceFirstList, h0]
      rw [if_neg Bool.false_ne_true]
      exact congrArg (List.cons c) (ih h')

theorem colon_append_data (k : String) : (":" ++ k).data = ':' :: k.data := by
  cases k
  rfl

/-- C1: for every route with a response validator attached, whenever the
handler emits a JSON body while a response schema is registered for the
current status code and parsing the body through that schema fails, the
emitted response has status 500 and exactly the body
`{status: "Internal server error", message: "Server generated response is out
of API spec"}`, regardless of the original body; the call trace is empty, so
the errorHandler is never invoked for this failure. -/
theorem responseValidator_outOfSpec_fixed500 (rd : RouteDescription) (res : ResCtx)
    (body : JVal) (s : Schema)
    (hlook : respLookup rd.response res.statusCode = some s)
    (hfail : s body = none) :
    resJsonOverride rd res body
      = ({ statusCode := 500, sentBody := some fixedErrorBody }, []) := by
  unfold resJsonOverride
  rw [hlook]
  dsimp only
  rw [hfail]

/-- Witness for C1 at a concrete route whose 200 schema fails on the body. -/
theorem responseValidator_outOfSpec_fixed500_witness :
    respLookup rdFail200.response 200 = some sFail ∧
    resJsonOverride rdFail200 ⟨200, none⟩ (JVal.vstr "x")
      = ({ statusCode := 500, sentBody := some fixedErrorBody }, []) :=
  ⟨rfl, responseValidator_outOfSpec_fixed500 rdFail200 ⟨200, none⟩ (JVal.vstr "x") sFail rfl rfl⟩

/-- C2: for every route in the Route Table whose description declares no path
schema, a request whose path-parameter bag carries at least one key is
rejected by the request validator (the empty-object assertion fails), so the
call trace is exactly one errorHandler invocation and the next stage is not
invoked; the second conjunct states the same two-branch policy for query
parameters. -/
theorem requestValidator_undeclared_bag_reject :
    (∀ (ho co q b : Option Schema) (respm : List (RespKey × Schema)) (cfg : RouterConfig)
       (kv : String × JVal) (l : List (String × JVal)) (qv bv hv cv : JVal) (res : ResCtx),
       (requestValidator ⟨ho, co, none, q, b, respm⟩ cfg
          ⟨JVal.vobj (kv :: l), qv, bv, hv, cv⟩ res).2.2 = [Call.errorHandler]) ∧
    (∀ (ho co b : Option Schema) (respm : List (RespKey × Schema)) (cfg : RouterConfig)
       (kv : String × JVal) (l : List (String × JVal)) (bv hv cv : JVal) (res : ResCtx),
       (requestValidator ⟨ho, co, none, none, b, respm⟩ cfg
          ⟨JVal.vobj [], JVal.vobj (kv :: l), bv, hv, cv⟩ res).2.2 = [Call.errorHandler]) :=
  ⟨by intros; rfl, by intros; rfl⟩

/-- C3 counterexample: the source's `replacePathParams` replaces only the
first occurrence of a `:key` placeholder (JS `String.prototype.replace` with
a string pattern), so on the template `/a/:id/:id` it yields `/a/7/:id`,
while replacing every occurrence as the claim states would yield `/a/7/7`. -/
theorem replacePathParams_not_all_occurrences :
    replacePathParams "/a/:id/:id" [("id", PathVal.str "7")] = "/a/7/:id" ∧
    replaceAllPathParams "/a/:id/:id" [("id", PathVal.str "7")] = "/a/7/7" ∧
    ("/a/7/:id" : String) ≠ "/a/7/7" := ⟨by decide, by decide, by decide⟩

/-- C3 amended: for every key in the substitution map, the Request Builder
replaces the first occurrence of the `:key` token in the current template
with the stringified value (first conjunct: the occurrence at position
`a.length` is substituted provided no occurrence starts earlier), and a key
whose `:key` token does not occur in the template leaves it unchanged
(second conjunct), so unmatched placeholders survive substitution. -/
theorem replacePathParams_first_occurrence :
    (∀ (a b : List Char) (k : String) (v : PathVal),
       (∀ i, i < a.length →
          startsWithL (':' :: k.data) ((a ++ (':' :: k.data) ++ b).drop i) = false) →
       replacePathParams (String.mk (a ++ (':' :: k.data) ++ b)) [(k, v)]
         = String.mk (a ++ (pvToString v).data ++ b)) ∧
    (∀ (url : String) (k : String) (v : PathVal),
       occursIn (':' :: k.data) url.data = false →
       replacePathParams url [(k, v)] = url) := by
  constructor
  · intro a b k v h
    show jsReplaceFirst (String.mk (a ++ (':' :: k.data) ++ b)) (":" ++ k) (pvToString v)
      = String.mk (a ++ (pvToString v).data ++ b)
    unfold jsReplaceFirst
    rw [colon_append_data]
    exact congrArg String.mk (replaceFirstList_first_occ (':' :: k.data) (pvToString v).data b a h)
  · intro url k v h
    show jsReplaceFirst url (":" ++ k) (pvToString v) = url
    unfold jsReplaceFirst
    rw [colon_append_data]
    rw [replaceFirstList_no_occ (':' :: k.data) (pvToString v).data url.data h]

/-- Witness for the amended C3: `/users/:id` with `{id: "7"}` gives
`/users/7`, and a template without the token is unchanged. -/
theorem replacePathParams_first_occurrence_witness :
    (∀ i, i < "/users/".data.length →
       startsWithL (':' :: "id".data)
         (("/users/".data ++ (':' :: "id".data) ++ []).drop i) = false) ∧
    replacePathParams (String.mk ("/users/".data ++ (':' :: "id".data) ++ []))
        [("id", PathVal.str "7")]
      = String.mk ("/users/".data ++ (pvToString (PathVal.str "7")).data ++ []) ∧
    occursIn (':' :: "id".data) "/users".data = false ∧
    replacePathParams "/users" [("id", PathVal.str "7")] = "/users" :=
  ⟨by decide,
   replacePathParams_first_occurrence.1 "/users/".data [] "id" (PathVal.str "7") (by decide),
   by decide,
   replacePathParams_first_occurrence.2 "/users" "id" (PathVal.str "7") (by decide)⟩

/-- C4: for every (path, method) pair absent from the Route Table, the
overridden verb method hands the original handler array unchanged to the
underlying registrar (no injected middleware), the effective chain is
exactly the user handlers in their original order, and no element of that
chain ever invokes a schema parse. -/
theorem passthrough_route_unmodified {H : Type} (api : Api) (cfg : RouterConfig)
    (m : Method) (p : String) (handlers : List H)
    (h : apiLookup api p m = none) :
    registrarArgs api cfg m p handlers = [RegArg.many handlers] ∧
    registeredChain api cfg m p handlers = handlers.map Mw.user ∧
    ∀ mw ∈ registeredChain api cfg m p handlers, mwInvokesParse mw = false := by
  have hargs : registrarArgs api cfg m p handlers = [RegArg.many handlers] := by
    unfold registrarArgs
    rw [h]
  have hchain : registeredChain api cfg m p handlers = handlers.map Mw.user := by
    unfold registeredChain
    rw [hargs]
    simp [flattenArgs]
  refine ⟨hargs, hchain, ?_⟩
  intro mw hmw
  rw [hchain] at hmw
  obtain ⟨x, _, rfl⟩ := List.mem_map.mp hmw
  rfl

/-- Witness for C4 on the empty Route Table. -/
theorem passthrough_route_unmodified_witness :
    apiLookup ([] : Api) "/x" Method.get = none ∧
    registrarArgs ([] : Api) ⟨true, false⟩ Method.get "/x" ([0, 1] : List Nat)
      = [RegArg.many [0, 1]] ∧
    registeredChain ([] : Api) ⟨true, false⟩ Method.get "/x" ([0, 1] : List Nat)
      = [Mw.user 0, Mw.user 1] ∧
    ∀ mw ∈ registeredChain ([] : Api) ⟨true, false⟩ Method.get "/x" ([0, 1] : List Nat),
      mwInvokesParse mw = false := by
  have h := passthrough_route_unmodified ([] : Api) ⟨true, false⟩ Method.get "/x"
    ([0, 1] : List Nat) rfl
  exact ⟨rfl, h.1, h.2.1, h.2.2⟩

/-- C5: for every route in the Route Table, whenever validation of path,
query or body fails, the request validator's call trace is exactly one
errorHandler invocation (so the next stage never runs), and the middleware
leaves the response context untouched (no status code or body set); the
model function is total, so no exception escapes. -/
theorem requestValidator_failure_errorHandler_once (rd : RouteDescription)
    (cfg : RouterConfig) (req : ReqCtx) (res : ResCtx)
    (h : reqValidationOk rd cfg req = false) :
    (requestValidator rd cfg req res).2.2 = [Call.errorHandler] ∧
    Call.next ∉ (requestValidator rd cfg req res).2.2 ∧
    (requestValidator rd cfg req res).2.1 = res := by
  obtain ⟨hres, htr⟩ := requestValidator_res_and_trace rd cfg req res
  rw [h] at htr
  simp only [if_neg Bool.false_ne_true] at htr
  refine ⟨htr, ?_, hres⟩
  rw [htr]
  simp

/-- Witness for C5 at a route with no schemas and a non-empty params bag. -/
theorem requestValidator_failure_errorHandler_once_witness :
    reqValidationOk rdBare ⟨true, false⟩ reqOneParam = false ∧
    (requestValidator rdBare ⟨true, false⟩ reqOneParam ⟨200, none⟩).2.2 = [Call.errorHandler] ∧
    Call.next ∉ (requestValidator rdBare ⟨true, false⟩ reqOneParam ⟨200, none⟩).2.2 ∧
    (requestValidator rdBare ⟨true, false⟩ reqOneParam ⟨200, none⟩).2.1 = (⟨200, none⟩ : ResCtx) :=
  ⟨rfl, requestValidator_failure_errorHandler_once rdBare ⟨true, false⟩ reqOneParam ⟨200, none⟩ rfl⟩

/-- C6: for every (path, method) pair present in the Route Table,
registration delegates the sequence `[requestValidator, responseValidator,
...userHandlers]` when `attachResponseValidator` is set and
`[requestValidator, ...userHandlers]` otherwise, preserving the user
handlers' relative order, and the response validator occurs in the chain if
and only if `attachResponseValidator` is set. -/
theorem declared_route_chain {H : Type} (api : Api) (cfg : RouterConfig)
    (m : Method) (p : String) (handlers : List H) (rd : RouteDescription)
    (h : apiLookup api p m = some rd) :
    registeredChain api cfg m p handlers
      = (if cfg.attachResponseValidator then
           [Mw.requestValidatorMw rd cfg, Mw.responseValidatorMw rd]
         else [Mw.requestValidatorMw rd cfg]) ++ handlers.map Mw.user ∧
    (Mw.responseValidatorMw rd ∈ registeredChain api cfg m p handlers ↔
       cfg.attachResponseValidator = true) := by
  unfold registeredChain registrarArgs
  rw [h]
  cases hA : cfg.attachResponseValidator <;> simp [flattenArgs]

/-- Witness for C6 on a one-route table with the response validator enabled. -/
theorem declared_route_chain_witness :
    apiLookup apiOne "/u" Method.get = some rdBare ∧
    (registeredChain apiOne ⟨true, false⟩ Method.get "/u" ([0, 1] : List Nat)
      = (if (true : Bool) then
           [Mw.requestValidatorMw rdBare ⟨true, false⟩, Mw.responseValidatorMw rdBare]
         else [Mw.requestValidatorMw rdBare ⟨true, false⟩]) ++ ([0, 1] : List Nat).map Mw.user ∧
    (Mw.responseValidatorMw rdBare ∈
        registeredChain apiOne ⟨true, false⟩ Method.get "/u" ([0, 1] : List Nat) ↔
       (true : Bool) = true)) :=
  ⟨rfl, declared_route_chain apiOne ⟨true, false⟩ Method.get "/u" ([0, 1] : List Nat) rdBare rfl⟩

/-- C7: for every route with a response validator attached, a status code
with no schema registered under that numeric code lets the original body
through unchanged (status untouched, empty call trace), and the "default"
response entry is never selected for any numeric status code: the lookup is
invariant under removing every "default" entry from the response map. -/
theorem responseValidator_no_schema_passthrough :
    (∀ (rd : RouteDescription) (res : ResCtx) (body : JVal),
       respLookup rd.response res.statusCode = none →
       resJsonOverride rd res body = ({ res with sentBody := some body }, [])) ∧
    (∀ (m : List (RespKey × Schema)) (n : Nat),
       respLookup m n = respLookup (m.filter (fun e => decide (e.1 ≠ RespKey.dflt))) n) := by
  constructor
  · intro rd res body h
    unfold resJsonOverride
    rw [h]
  · intro m n
    unfold respLookup
    rw [find?_code_filter]

/-- Witness for C7 at a route with an empty response map. -/
theorem responseValidator_no_schema_passthrough_witness :
    respLookup rdBare.response 200 = none ∧
    resJsonOverride rdBare ⟨200, none⟩ (JVal.vstr "x")
      = ({ statusCode := 200, sentBody := some (JVal.vstr "x") }, []) :=
  ⟨rfl, responseValidator_no_schema_passthrough.1 rdBare ⟨200, none⟩ (JVal.vstr "x") rfl⟩

/-- C8: the Request Builder given no config returns exactly
`{method, url: pathTemplate}` with the template unmodified, and given config
`{path: {id: 7}}` with path template `/users/:id` it produces url
`/users/7`. -/
theorem requestBuilder_roundtrip :
    (∀ (m : Method) (p : String),
       buildAxiosConfig m p none
         = { method := m, url := p, headers := none, params := none,
             hasParamsSerializer := false, data := none }) ∧
    (buildAxiosConfig Method.get "/users/:id" (some { path := some [("id", PathVal.num 7)] })).url
      = "/users/7" :=
  ⟨fun _ _ => rfl, by decide⟩

/-- C9: the request validator never reads or validates the request's headers
even when a header schema is declared (the outcome is identical for any two
header schemas and any two header values), and it leaves every part of the
request context other than the params, query and body bags unchanged
(headers and cookies are preserved, and the response context is untouched). -/
theorem requestValidator_never_reads_headers (ho1 ho2 co p q b : Option Schema)
    (respm : List (RespKey × Schema)) (cfg : RouterConfig)
    (pv qv bv hv1 hv2 cv : JVal) (res : ResCtx) :
    (requestValidator ⟨ho1, co, p, q, b, respm⟩ cfg ⟨pv, qv, bv, hv1, cv⟩ res).1.headers = hv1 ∧
    (requestValidator ⟨ho1, co, p, q, b, respm⟩ cfg ⟨pv, qv, bv, hv1, cv⟩ res).1.cookies = cv ∧
    (requestValidator ⟨ho1, co, p, q, b, respm⟩ cfg ⟨pv, qv, bv, hv1, cv⟩ res).2.1 = res ∧
    (requestValidator ⟨ho1, co, p, q, b, respm⟩ cfg ⟨pv, qv, bv, hv1, cv⟩ res).1.params
      = (requestValidator ⟨ho2, co, p, q, b, respm⟩ cfg ⟨pv, qv, bv, hv2, cv⟩ res).1.params ∧
    (requestValidator ⟨ho1, co, p, q, b, respm⟩ cfg ⟨pv, qv, bv, hv1, cv⟩ res).1.query
      = (requestValidator ⟨ho2, co, p, q, b, respm⟩ cfg ⟨pv, qv, bv, hv2, cv⟩ res).1.query ∧
    (requestValidator ⟨ho1, co, p, q, b, respm⟩ cfg ⟨pv, qv, bv, hv1, cv⟩ res).1.body
      = (requestValidator ⟨ho2, co, p, q, b, respm⟩ cfg ⟨pv, qv, bv, hv2, cv⟩ res).1.body ∧
    (requestValidator ⟨ho1, co, p, q, b, respm⟩ cfg ⟨pv, qv, bv, hv1, cv⟩ res).2.2
      = (requestValidator ⟨ho2, co, p, q, b, respm⟩ cfg ⟨pv, qv, bv, hv2, cv⟩ res).2.2 := by
  unfold requestValidator
  dsimp only
  split
  · simp
  · split
    · simp
    · split
      · simp
      · split
        · simp
        · simp

/-- C10: with a response validator attached, if the schema registered for the
current status code parses the emitted body successfully but to a nullish
value (`null` or `undefined`), the nullish-coalescing fallback emits the
original raw body (status code unchanged): the `?? body` fallback applies to
the parse result, not only to the schema lookup. -/
theorem responseValidator_nullish_parse_raw_body (rd : RouteDescription) (res : ResCtx)
    (body : JVal) (s : Schema) (p : JVal)
    (hlook : respLookup rd.response res.statusCode = some s)
    (hp : s body = some p) (hnull : isNullish p = true) :
    resJsonOverride rd res body = ({ res with sentBody := some body }, []) := by
  unfold resJsonOverride
  rw [hlook]
  dsimp only
  rw [hp]
  dsimp only
  rw [hnull]
  simp

/-- Witness for C10 at a route whose 200 schema parses every body to null. -/
theorem responseValidator_nullish_parse_raw_body_witness :
    respLookup rdNull200.response 200 = some sNull ∧ sNull (JVal.vstr "x") = some JVal.vnull ∧
    resJsonOverride rdNull200 ⟨200, none⟩ (JVal.vstr "x")
      = ({ statusCode := 200, sentBody := some (JVal.vstr "x") }, []) :=
  ⟨rfl, rfl,
    responseValidator_nullish_parse_raw_body rdNull200 ⟨200, none⟩ (JVal.vstr "x") sNull
      JVal.vnull rfl rfl rfl⟩

end ExZodOs
